import Mathlib

/-!
Verification development for the `SbrkMemoryAllocator` class of `src/main.cpp`.

The allocator manages a linear heap grown by `sbrk` plus independently
`mmap`-ed large-object regions.  We embed it shallowly: machine memory is a
finite map from header addresses (naturals) to `MemoryBlock` records, pointers
are `Option Nat` (with `none` playing the role of `nullptr`), and the two OS
primitives are modelled as synchronous calls that either succeed immediately
(returning fresh addresses from the `brk` / `mmapNext` counters and being
recorded in a call trace) or fail immediately.  The source's unbounded loops
(`findFreeBloc`, `appendToBlockList`, `removeFromFreeList`,
`mergeContigousFreeBlocks`) become fuel-indexed recursions returning `none`
when the fuel runs out, so non-termination of a loop is the statement that the
function returns `none` for every fuel.
-/

namespace SbrkAlloc

/-- The `MemoryBlock` header struct of the source: payload byte count,
free flag, mmap flag, address-order successor link and free-list link.
Pointer fields are `Option Nat` header addresses, `none` = `nullptr`. -/
structure MemoryBlock where
  size : Nat
  isFree : Bool
  isMmapAllocated : Bool
  next : Option Nat
  nextFree : Option Nat
deriving Repr, DecidableEq

/-- Value of `sizeof(MemoryBlock)` on the x86-64 target: 8 (size_t) + 1 + 1 + 6 bytes
of padding + 8 + 8 (two pointers). -/
def headerSize : Nat := 32

/-- Constant `MIN_PAYLOAD_SIZE` from the source. -/
def MIN_PAYLOAD_SIZE : Nat := 8

/-- Constant `MIN_USEABLE_SIZE = sizeof(MemoryBlock) + MIN_PAYLOAD_SIZE`. -/
def MIN_USEABLE_SIZE : Nat := headerSize + MIN_PAYLOAD_SIZE

/-- Constant `MMAP_THRESHOLD = 128*1024`. -/
def MMAP_THRESHOLD : Nat := 128 * 1024

/-- Machine memory restricted to block headers: an association list from
header address to header contents.  Keys are kept unique by `memUpdate`. -/
def Mem := List (Nat × MemoryBlock)
deriving DecidableEq, Repr

/-- Read the header stored at address `a` (dereference a block pointer). -/
def memLookup : Mem → Nat → Option MemoryBlock
  | [], _ => none
  | (k, b) :: rest, a => if k = a then some b else memLookup rest a

/-- Write a header at address `a`, overwriting any header already there. -/
def memUpdate : Mem → Nat → MemoryBlock → Mem
  | [], a, b => [(a, b)]
  | (k, c) :: rest, a, b =>
      if k = a then (a, b) :: rest else (k, c) :: memUpdate rest a b

/-- Discard the header at address `a` (the region is unmapped). -/
def memErase : Mem → Nat → Mem
  | [], _ => []
  | (k, c) :: rest, a => if k = a then rest else (k, c) :: memErase rest a

/-- The whole state of a `SbrkMemoryAllocator` object together with the
modelled OS: the two list heads, the headers currently in memory, the heap
break, a counter giving out fresh mmap region addresses, and traces of the
successful `sbrk`/`mmap`/`munmap` calls (most recent first). -/
structure AllocState where
  mem : Mem
  freeListHead : Option Nat
  blockListHead : Option Nat
  brk : Nat
  mmapNext : Nat
  sbrkCalls : List Nat
  mmapCalls : List Nat
  munmapCalls : List (Nat × Nat)
deriving Repr, DecidableEq

/-- The state of a freshly constructed allocator: both heads null, no blocks;
the heap starts at address 1000 and mmap regions are handed out from 2^40. -/
def initState : AllocState :=
  { mem := [], freeListHead := none, blockListHead := none,
    brk := 1000, mmapNext := 2 ^ 40,
    sbrkCalls := [], mmapCalls := [], munmapCalls := [] }

/-- Method `initialiseBlock`: write a fresh header (not free, null links). -/
def initialiseBlock (size : Nat) (isMmapAllocated : Bool) : MemoryBlock :=
  { size := size, isFree := false, isMmapAllocated := isMmapAllocated,
    next := none, nextFree := none }

/-- The tail-finding loop of `appendToBlockList`:
`while (curr->next) curr = curr->next; curr->next = block;`. -/
def appendAux (mem : Mem) (curr blockAddr : Nat) : Nat → Option Mem
  | 0 => none
  | fuel + 1 =>
    match memLookup mem curr with
    | none => none
    | some cb =>
      match cb.next with
      | none => some (memUpdate mem curr { cb with next := some blockAddr })
      | some nx => appendAux mem nx blockAddr fuel

/-- Method `appendToBlockList`: append a block at the tail of the block list. -/
def appendToBlockList (s : AllocState) (blockAddr : Nat) (fuel : Nat) :
    Option AllocState :=
  match s.blockListHead with
  | none => some { s with blockListHead := some blockAddr }
  | some h => (appendAux s.mem h blockAddr fuel).map
      (fun m => { s with mem := m })

/-- Method `addToFreeList`: push a block at the head of the free list. -/
def addToFreeList (s : AllocState) (a : Nat) : Option AllocState :=
  match memLookup s.mem a with
  | none => none
  | some b =>
      some { s with
        mem := memUpdate s.mem a { b with nextFree := s.freeListHead },
        freeListHead := some a }

/-- The predecessor-searching loop of `removeFromFreeList`:
`while (curr->nextFree && curr->nextFree != block) curr = curr->nextFree;`
followed by `if (curr->nextFree == block) curr->nextFree = block->nextFree;`. -/
def removeAux (mem : Mem) (curr blockAddr : Nat) : Nat → Option Mem
  | 0 => none
  | fuel + 1 =>
    match memLookup mem curr with
    | none => none
    | some cb =>
      match cb.nextFree with
      | none => some mem
      | some n =>
        if n = blockAddr then
          match memLookup mem blockAddr with
          | none => none
          | some bb => some (memUpdate mem curr { cb with nextFree := bb.nextFree })
        else removeAux mem n blockAddr fuel

/-- Method `removeFromFreeList`.  Note the head case reproduces the source verbatim:
`freeListHead = freeListHead->next;` follows the BLOCK-list link `next`, not
the free-list link `nextFree` (src/main.cpp line 112). -/
def removeFromFreeList (s : AllocState) (blockAddr : Nat) (fuel : Nat) :
    Option AllocState :=
  match s.freeListHead with
  | none => some s
  | some h =>
    if h = blockAddr then
      match memLookup s.mem h with
      | none => none
      | some hb => some { s with freeListHead := hb.next }
    else (removeAux s.mem h blockAddr fuel).map (fun m => { s with mem := m })

/-- The scanning loop of `findFreeBloc`: first block in free-list link order
with `curr->isFree && curr->size >= size`; `some none` means the scan ended
without a candidate, outer `none` means the fuel ran out. -/
def findFreeBlocAux (mem : Mem) (size : Nat) :
    Option Nat → Nat → Option (Option Nat)
  | none, _ => some none
  | some _, 0 => none
  | some a, fuel + 1 =>
    match memLookup mem a with
    | none => none
    | some b =>
      if b.isFree && decide (size ≤ b.size) then some (some a)
      else findFreeBlocAux mem size b.nextFree fuel

/-- Method `findFreeBloc`: first-fit scan of the free list. -/
def findFreeBloc (s : AllocState) (size fuel : Nat) : Option (Option Nat) :=
  findFreeBlocAux s.mem size s.freeListHead fuel

/-- Method `shouldSplitBlock`: `block->size >= size + MIN_USEABLE_SIZE`. -/
def shouldSplitBlock (b : MemoryBlock) (size : Nat) : Bool :=
  decide (size + MIN_USEABLE_SIZE ≤ b.size)

/-- Method `splitBlock`: carve a new header at `payload_start + size` inside the
block at `a`, sized `block->size - size - sizeof(MemoryBlock)`, mark it free,
push it on the free list, then shrink the original block and link it to the
new one.  The source never writes the new header's `isMmapAllocated` field;
the carved-out payload bytes are modelled as zeroed, so it reads as `false`. -/
def splitBlock (s : AllocState) (a size : Nat) : Option AllocState :=
  match memLookup s.mem a with
  | none => none
  | some b =>
    let newAddr := a + headerSize + size
    let newBlock : MemoryBlock :=
      { size := b.size - size - headerSize, isFree := true,
        isMmapAllocated := false, next := b.next, nextFree := none }
    let s1 := { s with mem := memUpdate s.mem newAddr newBlock }
    match addToFreeList s1 newAddr with
    | none => none
    | some s2 =>
        some { s2 with
          mem := memUpdate s2.mem a { b with size := size, next := some newAddr } }

/-- The scan loop of `mergeContigousFreeBlocks`.  Faithful to the source:
the walk starts at `blockListHead` but follows the FREE-list link
`curr->nextFree` to pick the merge candidate; after a successful merge it
`continue`s from the survivor; when the candidate pair is both free but not
contiguous it advances along the block list (`curr = curr->next`); and when
the pair is NOT both free, the advancing statement is skipped (it sits inside
the `if (curr->isFree && next->isFree)` braces, src/main.cpp line 177), so the
loop spins on the same `curr` forever. -/
def mergeLoop (s : AllocState) : Option Nat → Nat → Option AllocState
  | _, 0 => none
  | none, _ + 1 => some s
  | some c, fuel + 1 =>
    match memLookup s.mem c with
    | none => none
    | some cb =>
      match cb.nextFree with
      | none => some s
      | some n =>
        if cb.isFree then
          match memLookup s.mem n with
          | none => none
          | some nb =>
            if nb.isFree then
              if c + headerSize + cb.size = n then
                let cb2 := { cb with size := cb.size + headerSize + nb.size, next := nb.next }
                let s1 := { s with mem := memUpdate s.mem c cb2 }
                match removeFromFreeList s1 n fuel with
                | none => none
                | some s2 => mergeLoop s2 (some c) fuel
              else mergeLoop s cb.next fuel
            else mergeLoop s (some c) fuel
        else mergeLoop s (some c) fuel

/-- Method `mergeContigousFreeBlocks`: run the scan from the block-list head. -/
def mergeContigousFreeBlocks (s : AllocState) (fuel : Nat) : Option AllocState :=
  mergeLoop s s.blockListHead fuel

/-- Method `malloc`.  The flag `osOk` tells whether an OS primitive reached on this call
succeeds.  Result `some (p, s')` is a completed call returning pointer `p`
(`none` = `nullptr`); outer `none` means a loop in the source failed to
terminate within `fuel` steps (or dereferenced an unmapped address). -/
def malloc (s : AllocState) (osOk : Bool) (size fuel : Nat) :
    Option (Option Nat × AllocState) :=
  if MMAP_THRESHOLD ≤ size then
    if osOk then
      let totalSize := size + headerSize
      let a := s.mmapNext
      let s' := { s with
        mem := memUpdate s.mem a (initialiseBlock size true),
        mmapNext := s.mmapNext + totalSize,
        mmapCalls := totalSize :: s.mmapCalls }
      some (some (a + headerSize), s')
    else some (none, s)
  else
    match findFreeBloc s size fuel with
    | none => none
    | some (some fb) =>
      match memLookup s.mem fb with
      | none => none
      | some b =>
        match (if shouldSplitBlock b size then splitBlock s fb size else some s) with
        | none => none
        | some s1 =>
          match memLookup s1.mem fb with
          | none => none
          | some b1 =>
            let s2 := { s1 with mem := memUpdate s1.mem fb { b1 with isFree := false } }
            match removeFromFreeList s2 fb fuel with
            | none => none
            | some s3 => some (some (fb + headerSize), s3)
    | some none =>
      if osOk then
        let a := s.brk
        let s1 := { s with
          mem := memUpdate s.mem a (initialiseBlock size false),
          brk := s.brk + (size + headerSize),
          sbrkCalls := (size + headerSize) :: s.sbrkCalls }
        match appendToBlockList s1 a fuel with
        | none => none
        | some s2 => some (some (a + headerSize), s2)
      else some (none, s)

/-- Method `free`.  A `none` pointer is the source's null check `if (!ptr) return;`.
An mmap-allocated block is unmapped (`munmap(block, block->size +
sizeof(MemoryBlock))`) with no registry interaction; otherwise the block is
marked free, pushed on the free list, and the coalescing scan runs. -/
def free (s : AllocState) (ptr : Option Nat) (fuel : Nat) : Option AllocState :=
  match ptr with
  | none => some s
  | some p =>
    let a := p - headerSize
    match memLookup s.mem a with
    | none => none
    | some b =>
      if b.isMmapAllocated then
        some { s with
          mem := memErase s.mem a,
          munmapCalls := (a, b.size + headerSize) :: s.munmapCalls }
      else
        let s1 := { s with mem := memUpdate s.mem a { b with isFree := true } }
        match addToFreeList s1 a with
        | none => none
        | some s2 => mergeContigousFreeBlocks s2 fuel

/-- The list of header addresses currently reachable from a free-list entry
pointer via `nextFree` links (the contents of the Free Registry);
`none` when the chain does not end within `fuel` steps. -/
def freeChainAux (mem : Mem) : Option Nat → Nat → Option (List Nat)
  | none, _ => some []
  | some _, 0 => none
  | some a, fuel + 1 =>
    match memLookup mem a with
    | none => none
    | some b => (freeChainAux mem b.nextFree fuel).map (fun l => a :: l)

/-- The contents of the Free Registry of a state, in link order. -/
def freeChain (s : AllocState) (fuel : Nat) : Option (List Nat) :=
  freeChainAux s.mem s.freeListHead fuel

end SbrkAlloc

namespace SbrkAlloc

/-! ### Concrete executions

Call sequences used to exhibit the behaviour of the allocator on concrete
inputs.  Each step threads the state of the previous step; `stFree` returns
a dummy `none` pointer component so that malloc and free steps compose. -/

/-- Run a pointer-returning operation on the state of a previous step. -/
def stStep (x : Option (Option Nat × AllocState))
    (op : AllocState → Option (Option Nat × AllocState)) :
    Option (Option Nat × AllocState) :=
  x.bind (fun y => op y.2)

/-- Run a `free` call on the state of a previous step. -/
def stFree (x : Option (Option Nat × AllocState)) (p : Option Nat) :
    Option (Option Nat × AllocState) :=
  x.bind (fun y => (free y.2 p 100).map (fun s => (none, s)))

/-- Call 1: `malloc(100)` on a fresh allocator; yields block 1000, payload 1032. -/
def st1 : Option (Option Nat × AllocState) := malloc initState true 100 100

/-- Call 2: `malloc(100)`; yields block 1132, payload 1164. -/
def st2 : Option (Option Nat × AllocState) := stStep st1 (fun s => malloc s true 100 100)

/-- Call 3: `malloc(100)`; yields block 1264, payload 1296. -/
def st3 : Option (Option Nat × AllocState) := stStep st2 (fun s => malloc s true 100 100)

/-- Call 4: `malloc(140)`; yields block 1396, payload 1428. -/
def st4 : Option (Option Nat × AllocState) := stStep st3 (fun s => malloc s true 140 100)

/-- Call 5: `malloc(120)`; yields block 1568, payload 1600. -/
def st5 : Option (Option Nat × AllocState) := stStep st4 (fun s => malloc s true 120 100)

/-- Call 6: `malloc(100)`; yields block 1720, payload 1752. -/
def st6 : Option (Option Nat × AllocState) := stStep st5 (fun s => malloc s true 100 100)

/-- Call 7: `free` the call-2 pointer. -/
def st7 : Option (Option Nat × AllocState) := stFree st6 (some 1164)

/-- Call 8: `free` the call-4 pointer. -/
def st8 : Option (Option Nat × AllocState) := stFree st7 (some 1428)

/-- Call 9: `free` the call-5 pointer. -/
def st9 : Option (Option Nat × AllocState) := stFree st8 (some 1600)

/-- Call 10: `malloc(130)`; reuses block 1396, leaving its stale `nextFree`
pointing at block 1132. -/
def st10 : Option (Option Nat × AllocState) := stStep st9 (fun s => malloc s true 130 100)

/-- Call 11: `free` the call-1 pointer. -/
def st11 : Option (Option Nat × AllocState) := stFree st10 (some 1032)

/-- Call 12: `malloc(120)`; reuses block 1568 and splices the free list so
that block 1000 links directly to block 1132. -/
def st12 : Option (Option Nat × AllocState) := stStep st11 (fun s => malloc s true 120 100)

/-- Call 13: `free` the call-6 pointer; its coalescing scan merges blocks
1000 and 1132 into one free block of size 232 at 1000, leaving the stale
header of 1132 in place and marked free. -/
def st13 : Option (Option Nat × AllocState) := stFree st12 (some 1752)

/-- Call 14: `malloc(232)`; returns payload 1032 of the merged block, whose
live payload range [1032, 1264) covers the stale header at 1132. -/
def st14 : Option (Option Nat × AllocState) := stStep st13 (fun s => malloc s true 232 100)

/-- Call 15: `free` the call-3 pointer (block 1264). -/
def st15 : Option (Option Nat × AllocState) := stFree st14 (some 1296)

/-- Call 16: `malloc(100)`; reuses block 1264, and the head removal follows
the block-list link, installing the ALLOCATED block 1396 as free-list head. -/
def st16 : Option (Option Nat × AllocState) := stStep st15 (fun s => malloc s true 100 100)

/-- Call 17: `malloc(100)`; the search skips the allocated head 1396, reaches
the stale absorbed header 1132 through its stale `nextFree`, and returns
payload 1164 inside the live call-14 allocation. -/
def st17 : Option (Option Nat × AllocState) := stStep st16 (fun s => malloc s true 100 100)

/-- Branch for claims C1/C2: after calls 1 and 2, `free` the call-1 pointer. -/
def c1s3 : Option (Option Nat × AllocState) := stFree st2 (some 1032)

/-- C1 branch, call 4: `malloc(100)` reuses block 1000; the head removal bug
sets the free-list head to block 1000's block-list successor 1132, which is
the still-live call-2 allocation. -/
def c1s4 : Option (Option Nat × AllocState) := stStep c1s3 (fun s => malloc s true 100 100)

/-- C2 branch, call 4: `free` the call-2 pointer; afterwards blocks 1000 and
1132 are both free, physically contiguous, and unmerged. -/
def c2s4 : Option (Option Nat × AllocState) := stFree c1s3 (some 1164)

/-- C3 branch, call 4: `free` the call-3 pointer (block 1264). -/
def c3s4 : Option (Option Nat × AllocState) := stFree st3 (some 1296)

/-- C3 branch, call 5: `free` the call-1 pointer; block 1000's `nextFree`
becomes 1264. -/
def c3s5 : Option (Option Nat × AllocState) := stFree c3s4 (some 1032)

/-- C3 branch, call 6: `malloc(100)` reuses block 1000, leaving it allocated
with stale `nextFree` 1264, and leaves the free-list head at the allocated
block 1132. -/
def c3s6 : Option (Option Nat × AllocState) := stStep c3s5 (fun s => malloc s true 100 100)

end SbrkAlloc

namespace SbrkAlloc

/-! ### Helper lemmas -/

/-- Reading an updated memory: the updated address holds the new header,
every other address is unchanged. -/
theorem memLookup_memUpdate (m : Mem) (a : Nat) (b : MemoryBlock) (x : Nat) :
    memLookup (memUpdate m a b) x = if x = a then some b else memLookup m x := by
  induction m with
  | nil =>
    by_cases h : x = a <;> simp_all [memUpdate, memLookup, eq_comm]
  | cons kc rest ih =>
    obtain ⟨k, c⟩ := kc
    by_cases hk : k = a <;> by_cases hx : k = x <;>
      simp_all [memUpdate, memLookup, eq_comm]

/-- When the scan of `mergeContigousFreeBlocks` stands on a block that is not
free but has a non-null `nextFree`, the advancing assignment is skipped (it
sits inside the `if` of src/main.cpp lines 165-178), so the loop never ends,
whatever fuel it is given. -/
theorem mergeLoop_stuck (s : AllocState) (c n : Nat) (cb : MemoryBlock)
    (hl : memLookup s.mem c = some cb) (hf : cb.isFree = false)
    (hn : cb.nextFree = some n) :
    ∀ fuel, mergeLoop s (some c) fuel = none := by
  intro fuel
  induction fuel with
  | zero => rfl
  | succ f ih =>
    simp only [mergeLoop, hl, hn, hf]
    simpa using ih

end SbrkAlloc

namespace SbrkAlloc

/-! ### Claim theorems on concrete executions -/

/-- Claim C1.  The invariant "a block is free iff reachable from the Free
Registry head; allocated blocks are never present in the Free Registry" is
NOT preserved by `malloc`: `removeFromFreeList` removes the chosen head block
by following its BLOCK-list link (`freeListHead = freeListHead->next`,
src/main.cpp line 112) instead of its free-list link, installing whatever
block physically follows it — here the still-live call-2 allocation 1132 —
as the Free Registry head while it is allocated (`isFree = false`).  The
failing input is `malloc(100); malloc(100); free(p1); malloc(100)`; the
source's own comment (line 24) documents the free list as "only free
blocks". -/
theorem claim_C1_code_bug :
    (st2.map Prod.fst = some (some 1164)) ∧
    c1s4.map (fun y => (y.2.freeListHead,
        (memLookup y.2.mem 1132).map MemoryBlock.isFree))
      = some (some 1132, some false) := by
  constructor
  · decide
  · decide

/-- Claim C2.  After `malloc(100); malloc(100); free(p1); free(p2)` the last
release has completed, yet blocks 1000 and 1132 are both free, physically
contiguous (payload end 1000 + 32 + 100 = header start 1132), and unmerged:
the Free Registry holds the two entries [1132, 1000] and block 1000 still has
size 100.  The coalescing scan starts at the block-list head 1000 and follows
its `nextFree` field, which is null here, so it exits without merging
anything — contradicting the claim that every adjacent free contiguous pair
is merged. -/
theorem claim_C2_code_bug :
    c2s4.map (fun y => (freeChain y.2 10,
        (memLookup y.2.mem 1000).map (fun bb => (bb.size, bb.isFree)),
        (memLookup y.2.mem 1132).map (fun bb => (bb.size, bb.isFree))))
      = some (some [1132, 1000], some (100, true), some (100, true)) ∧
    1000 + headerSize + 100 = 1132 := by
  constructor
  · decide
  · decide

/-- The allocator state reached by the six calls
`malloc(100); malloc(100); malloc(100); free(p3); free(p1); malloc(100)`:
block 1000 is allocated again but keeps a stale `nextFree` link to 1264, and
the Free Registry head is the allocated block 1132. -/
def c3Stuck : AllocState :=
  { mem := [(1000, { size := 100, isFree := false, isMmapAllocated := false,
                     next := some 1132, nextFree := some 1264 }),
            (1132, { size := 100, isFree := false, isMmapAllocated := false,
                     next := some 1264, nextFree := none }),
            (1264, { size := 100, isFree := true, isMmapAllocated := false,
                     next := none, nextFree := none })],
    freeListHead := some 1132,
    blockListHead := some 1000,
    brk := 1396,
    mmapNext := 1099511627776,
    sbrkCalls := [132, 132, 132],
    mmapCalls := [],
    munmapCalls := [] }

/-- The state `free(p2)` run on `c3Stuck` has built when its coalescing scan
starts: block 1132 marked free and pushed on the free list (its `nextFree`
becomes a self-loop because the head was already 1132). -/
def c3Spin : AllocState :=
  { mem := [(1000, { size := 100, isFree := false, isMmapAllocated := false,
                     next := some 1132, nextFree := some 1264 }),
            (1132, { size := 100, isFree := true, isMmapAllocated := false,
                     next := some 1264, nextFree := some 1132 }),
            (1264, { size := 100, isFree := true, isMmapAllocated := false,
                     next := none, nextFree := none })],
    freeListHead := some 1132,
    blockListHead := some 1000,
    brk := 1396,
    mmapNext := 1099511627776,
    sbrkCalls := [132, 132, 132],
    mmapCalls := [],
    munmapCalls := [] }

/-- Claim C3.  `release` does NOT always terminate: in the reachable state
`c3Stuck` (first conjunct: reached by six completed allocate/release calls),
the call `free(p2)` never returns, for every fuel bound: its coalescing scan
stands on the allocated block 1000 whose stale `nextFree` is non-null, a
configuration in which the loop of `mergeContigousFreeBlocks` never advances
`curr` (the advancing statement sits inside the `if (curr->isFree &&
next->isFree)` braces, src/main.cpp line 177), contradicting "every operation
completes before returning". -/
theorem claim_C3_code_bug :
    c3s6.map Prod.snd = some c3Stuck ∧
    ∀ fuel, free c3Stuck (some 1164) fuel = none := by
  refine ⟨by decide, fun fuel => ?_⟩
  show mergeLoop c3Spin (some 1000) fuel = none
  exact mergeLoop_stuck c3Spin 1000 1264
    { size := 100, isFree := false, isMmapAllocated := false,
      next := some 1132, nextFree := some 1264 } rfl rfl rfl fuel

/-- Claim C4.  Two simultaneously live allocations overlap: in the 17-call
sequence `st1`–`st17` (all calls complete), call 14 returns payload pointer
1032 for requested size 232 and call 17 returns payload pointer 1164 for
requested size 100, while the call-14 pointer is never released in calls
15–17; the ranges [1032, 1032+232) and [1164, 1164+100) intersect.  Call 17
hands out the stale header 1132 left inside the merged block 1000: the
free-list head removal bug (line 112) first installs the allocated block 1396
as Free Registry head (call 16), and the first-fit scan then walks its stale
`nextFree` to the absorbed block 1132, which is still marked free. -/
theorem claim_C4_code_bug :
    st14.map Prod.fst = some (some 1032) ∧
    st17.map Prod.fst = some (some 1164) ∧
    max 1032 1164 < min (1032 + 232) (1164 + 100) := by
  refine ⟨by decide, by decide, by decide⟩

/-- Claim C9.  `free(nullptr)` is a no-op: it returns the state completely
unchanged (in particular both registries, every header, and the OS call
traces), and invokes no OS primitive. -/
theorem claim_C9_free_null (s : AllocState) (fuel : Nat) :
    free s none fuel = some s := rfl

end SbrkAlloc

namespace SbrkAlloc

/-- Method `addToFreeList` never touches the mmap counter or the mmap call trace. -/
theorem addToFreeList_mmapQuiet (s s2 : AllocState) (a : Nat)
    (h : addToFreeList s a = some s2) :
    s2.mmapCalls = s.mmapCalls ∧ s2.mmapNext = s.mmapNext := by
  unfold addToFreeList at h
  split at h
  · exact absurd h (by simp)
  · injection h with h2
    subst h2
    exact ⟨rfl, rfl⟩

/-- Method `splitBlock` never touches the mmap counter or the mmap call trace. -/
theorem splitBlock_mmapQuiet (s s2 : AllocState) (a sz : Nat)
    (h : splitBlock s a sz = some s2) :
    s2.mmapCalls = s.mmapCalls ∧ s2.mmapNext = s.mmapNext := by
  unfold splitBlock at h
  split at h
  · exact absurd h (by simp)
  · simp only [] at h
    split at h
    · exact absurd h (by simp)
    · rename_i s1 hadd
      injection h with h2
      subst h2
      have hq := addToFreeList_mmapQuiet _ _ _ hadd
      exact ⟨hq.1, hq.2⟩

/-- Method `removeFromFreeList` never touches the mmap counter or the mmap trace. -/
theorem removeFromFreeList_mmapQuiet (s s2 : AllocState) (a fuel : Nat)
    (h : removeFromFreeList s a fuel = some s2) :
    s2.mmapCalls = s.mmapCalls ∧ s2.mmapNext = s.mmapNext := by
  unfold removeFromFreeList at h
  split at h
  · injection h with h2
    subst h2
    exact ⟨rfl, rfl⟩
  · split at h
    · split at h
      · exact absurd h (by simp)
      · injection h with h2
        subst h2
        exact ⟨rfl, rfl⟩
    · rw [Option.map_eq_some'] at h
      obtain ⟨m, _, h2⟩ := h
      subst h2
      exact ⟨rfl, rfl⟩

/-- Method `appendToBlockList` never touches the mmap counter or the mmap trace. -/
theorem appendToBlockList_mmapQuiet (s s2 : AllocState) (a fuel : Nat)
    (h : appendToBlockList s a fuel = some s2) :
    s2.mmapCalls = s.mmapCalls ∧ s2.mmapNext = s.mmapNext := by
  unfold appendToBlockList at h
  split at h
  · injection h with h2
    subst h2
    exact ⟨rfl, rfl⟩
  · rw [Option.map_eq_some'] at h
    obtain ⟨m, _, h2⟩ := h
    subst h2
    exact ⟨rfl, rfl⟩

/-- A completed `malloc` below the mmap threshold takes the managed heap
path: it never reserves a mapped region and never records an mmap call. -/
theorem malloc_small_mmapQuiet (s : AllocState) (osOk : Bool) (sz fuel : Nat)
    (hsz : sz < MMAP_THRESHOLD) (r : Option Nat) (s2 : AllocState)
    (h : malloc s osOk sz fuel = some (r, s2)) :
    s2.mmapCalls = s.mmapCalls ∧ s2.mmapNext = s.mmapNext := by
  unfold malloc at h
  rw [if_neg (Nat.not_le.mpr hsz)] at h
  split at h
  · exact absurd h (by simp)
  · -- a free candidate was found
    split at h
    · exact absurd h (by simp)
    · rename_i fb b hb
      split at h
      · exact absurd h (by simp)
      · rename_i s1 hs1
        split at h
        · exact absurd h (by simp)
        · rename_i b1 hb1
          simp only [] at h
          split at h
          · exact absurd h (by simp)
          · rename_i s3 hrem
            injection h with h2
            injection h2 with hr hs2
            subst hs2
            have hq3 := removeFromFreeList_mmapQuiet _ _ _ _ hrem
            have hq1 : s1.mmapCalls = s.mmapCalls ∧ s1.mmapNext = s.mmapNext := by
              by_cases hsp : shouldSplitBlock b sz
              · rw [if_pos hsp] at hs1
                exact splitBlock_mmapQuiet _ _ _ _ hs1
              · rw [if_neg hsp] at hs1
                injection hs1 with h3
                subst h3
                exact ⟨rfl, rfl⟩
            exact ⟨hq3.1.trans hq1.1, hq3.2.trans hq1.2⟩
  · -- no candidate: the sbrk path
    split at h
    · simp only [] at h
      split at h
      · exact absurd h (by simp)
      · rename_i s3 happ
        injection h with h2
        injection h2 with hr hs2
        subst hs2
        have hq := appendToBlockList_mmapQuiet _ _ _ _ happ
        exact ⟨hq.1, hq.2⟩
    · injection h with h2
      injection h2 with hr hs2
      subst hs2
      exact ⟨rfl, rfl⟩

end SbrkAlloc

namespace SbrkAlloc

/-- Claim C5.  Threshold behaviour: (1) for `size ≥ MMAP_THRESHOLD`,
`malloc` takes the independent mapping path, obtaining a fresh region of
exactly `size + header` bytes (the recorded mmap call), writing one large-
object header (`initialiseBlock size true`: marked mmap-allocated, null
links, so it enters neither registry — both list heads and all other headers
are untouched by the stated equation); (2) for `size < MMAP_THRESHOLD` every
completed `malloc` keeps the mapping primitive untouched (managed heap
path); (3) `free` on a pointer whose header is mmap-allocated invokes the
unmap primitive with exactly `size + header` bytes, discards that header and
performs no registry interaction (the resulting state differs only in the
erased header and the recorded munmap call). -/
theorem claim_C5_threshold (s : AllocState) (sz fuel : Nat) :
    (MMAP_THRESHOLD ≤ sz →
      malloc s true sz fuel = some (some (s.mmapNext + headerSize),
        { s with
            mem := memUpdate s.mem s.mmapNext (initialiseBlock sz true),
            mmapNext := s.mmapNext + (sz + headerSize),
            mmapCalls := (sz + headerSize) :: s.mmapCalls })) ∧
    (sz < MMAP_THRESHOLD → ∀ (osOk : Bool) (r : Option Nat) (s2 : AllocState),
      malloc s osOk sz fuel = some (r, s2) →
      s2.mmapCalls = s.mmapCalls ∧ s2.mmapNext = s.mmapNext) ∧
    (∀ (p : Nat) (b : MemoryBlock) (fuel2 : Nat),
      memLookup s.mem (p - headerSize) = some b → b.isMmapAllocated = true →
      free s (some p) fuel2 = some
        { s with
            mem := memErase s.mem (p - headerSize),
            munmapCalls := (p - headerSize, b.size + headerSize) :: s.munmapCalls }) := by
  refine ⟨fun h => ?_, fun h osOk r s2 hm => malloc_small_mmapQuiet s osOk sz fuel h r s2 hm,
    fun p b fuel2 hl hmm => ?_⟩
  · unfold malloc
    rw [if_pos h]
    rfl
  · simp only [free, hl, hmm, if_true]

/-- The allocator state after one completed `malloc(100)` call, used to
instantiate claim C5's managed-heap conjunct. -/
def c5Small : AllocState :=
  { mem := [(1000, { size := 100, isFree := false, isMmapAllocated := false,
                     next := none, nextFree := none })],
    freeListHead := none, blockListHead := some 1000, brk := 1132,
    mmapNext := 1099511627776, sbrkCalls := [132], mmapCalls := [],
    munmapCalls := [] }

/-- A state holding one mmap-allocated block of payload size 131072 at
address 2^40, used to instantiate claim C5's release conjunct. -/
def c5Mapped : AllocState :=
  { mem := [(1099511627776, initialiseBlock 131072 true)],
    freeListHead := none, blockListHead := none, brk := 1000,
    mmapNext := 1099511758880, sbrkCalls := [], mmapCalls := [131104],
    munmapCalls := [] }

/-- Witness for claim C5 at concrete inputs: `malloc(131072)` maps a fresh
region, `malloc(100)` stays off the mapping path, and `free` of the mapped
block unmaps 131072 + 32 bytes. -/
theorem claim_C5_threshold_witness :
    (MMAP_THRESHOLD ≤ 131072 ∧
      malloc initState true 131072 100 = some (some (initState.mmapNext + headerSize),
        { initState with
            mem := memUpdate initState.mem initState.mmapNext (initialiseBlock 131072 true),
            mmapNext := initState.mmapNext + (131072 + headerSize),
            mmapCalls := (131072 + headerSize) :: initState.mmapCalls })) ∧
    (100 < MMAP_THRESHOLD ∧ malloc initState true 100 100 = some (some 1032, c5Small) ∧
      c5Small.mmapCalls = initState.mmapCalls ∧ c5Small.mmapNext = initState.mmapNext) ∧
    (memLookup c5Mapped.mem (1099511627808 - headerSize) = some (initialiseBlock 131072 true) ∧
      (initialiseBlock 131072 true).isMmapAllocated = true ∧
      free c5Mapped (some 1099511627808) 100 = some
        { c5Mapped with
            mem := memErase c5Mapped.mem (1099511627808 - headerSize),
            munmapCalls := (1099511627808 - headerSize,
              (initialiseBlock 131072 true).size + headerSize) :: c5Mapped.munmapCalls }) := by
  refine ⟨⟨by decide, (claim_C5_threshold initState 131072 100).1 (by decide)⟩,
    ⟨by decide, by decide, ?_⟩,
    ⟨by decide, by decide,
      (claim_C5_threshold c5Mapped 0 0).2.2 1099511627808 (initialiseBlock 131072 true) 100
        (by decide) (by decide)⟩⟩
  exact (claim_C5_threshold initState 100 100).2.1 (by decide) true (some 1032) c5Small
    (by decide)

/-- Claim C7.  When the OS primitive fails, `malloc` returns the null
failure sentinel and the state is COMPLETELY unchanged — in particular both
registries and every header: on the mapping path the failure check precedes
any header write, and on the heap path (reached when the free-list search
finds no candidate) the `sbrk` failure check precedes any header write.  The
single returned sentinel is the only effect: nothing is retried. -/
theorem claim_C7_oom (s : AllocState) (sz fuel : Nat) :
    (MMAP_THRESHOLD ≤ sz → malloc s false sz fuel = some (none, s)) ∧
    (sz < MMAP_THRESHOLD → findFreeBloc s sz fuel = some none →
      malloc s false sz fuel = some (none, s)) := by
  constructor
  · intro h
    unfold malloc
    rw [if_pos h]
    rfl
  · intro h hf
    unfold malloc
    rw [if_neg (Nat.not_le.mpr h), hf]
    rfl

/-- Witness for claim C7: on a fresh allocator both failing paths return the
sentinel and leave the state intact. -/
theorem claim_C7_oom_witness :
    (MMAP_THRESHOLD ≤ 131072 ∧ malloc initState false 131072 100 = some (none, initState)) ∧
    (7 < MMAP_THRESHOLD ∧ findFreeBloc initState 7 100 = some none ∧
      malloc initState false 7 100 = some (none, initState)) :=
  ⟨⟨by decide, (claim_C7_oom initState 131072 100).1 (by decide)⟩,
   ⟨by decide, by decide, (claim_C7_oom initState 7 100).2 (by decide) (by decide)⟩⟩

end SbrkAlloc

namespace SbrkAlloc

/-- Unfolding of `splitBlock` at a block whose header is readable: the new
header is written at `a + header + size` (first with a null `nextFree`, then
relinked by `addToFreeList`), and the original header is shrunk and linked to
it. -/
theorem splitBlock_spec (s : AllocState) (a sz : Nat) (b : MemoryBlock)
    (hb : memLookup s.mem a = some b) :
    splitBlock s a sz = some
      { s with
          mem := memUpdate (memUpdate (memUpdate s.mem (a + headerSize + sz)
              { size := b.size - sz - headerSize, isFree := true, isMmapAllocated := false,
                next := b.next, nextFree := none })
            (a + headerSize + sz)
              { size := b.size - sz - headerSize, isFree := true, isMmapAllocated := false,
                next := b.next, nextFree := s.freeListHead })
            a { b with size := sz, next := some (a + headerSize + sz) },
          freeListHead := some (a + headerSize + sz) } := by
  unfold splitBlock
  rw [hb]
  simp only [addToFreeList, memLookup_memUpdate, eq_self_iff_true, if_true]

/-- Claim C6.  `shouldSplitBlock` holds exactly when the candidate's size
exceeds the request by at least one header plus the minimum usable payload
constant, and in that case `splitBlock` (invoked by `malloc` exactly under
this test) carves a new header at `payload_start + size` holding the
remainder minus one header, marked free, spliced after the original in the
block list (`original.next = new`, `new.next = original's old next`, at a
strictly higher address) and pushed into the Free Registry (`freeListHead =
new`, `new.nextFree =` old head), while the original block's size is shrunk
to exactly the request; no other header changes. -/
theorem claim_C6_split (s : AllocState) (a sz : Nat) (b : MemoryBlock)
    (hb : memLookup s.mem a = some b) :
    (shouldSplitBlock b sz = true ↔ sz + headerSize + MIN_PAYLOAD_SIZE ≤ b.size) ∧
    (shouldSplitBlock b sz = true →
      ∃ s2, splitBlock s a sz = some s2 ∧
        s2.freeListHead = some (a + headerSize + sz) ∧
        s2.blockListHead = s.blockListHead ∧
        memLookup s2.mem (a + headerSize + sz) = some
          { size := b.size - sz - headerSize, isFree := true,
            isMmapAllocated := false, next := b.next, nextFree := s.freeListHead } ∧
        memLookup s2.mem a = some { b with size := sz, next := some (a + headerSize + sz) } ∧
        (∀ x, x ≠ a → x ≠ a + headerSize + sz → memLookup s2.mem x = memLookup s.mem x) ∧
        a < a + headerSize + sz) := by
  have hne : a + headerSize + sz ≠ a := by unfold headerSize; omega
  constructor
  · simp only [shouldSplitBlock, MIN_USEABLE_SIZE, decide_eq_true_eq, Nat.add_assoc]
  · intro _
    refine ⟨_, splitBlock_spec s a sz b hb, rfl, rfl, ?_, ?_, ?_, ?_⟩
    · rw [memLookup_memUpdate, if_neg hne, memLookup_memUpdate, if_pos rfl]
    · rw [memLookup_memUpdate, if_pos rfl]
    · intro x hxa hxn
      rw [memLookup_memUpdate, if_neg hxa, memLookup_memUpdate, if_neg hxn,
        memLookup_memUpdate, if_neg hxn]
    · unfold headerSize
      omega

/-- A state holding one free block of size 100 at address 1000, used to
instantiate claim C6. -/
def c6State : AllocState :=
  { mem := [(1000, { size := 100, isFree := true, isMmapAllocated := false,
                     next := none, nextFree := some 1000 })],
    freeListHead := some 1000, blockListHead := some 1000, brk := 1132,
    mmapNext := 1099511627776, sbrkCalls := [132], mmapCalls := [],
    munmapCalls := [] }

/-- Witness for claim C6: splitting the free 100-byte block of `c6State` for
a request of 20 bytes leaves a 48-byte remainder block at 1052. -/
theorem claim_C6_split_witness :
    memLookup c6State.mem 1000 = some
      { size := 100, isFree := true, isMmapAllocated := false,
        next := none, nextFree := some 1000 } ∧
    shouldSplitBlock
      { size := 100, isFree := true, isMmapAllocated := false,
        next := none, nextFree := some 1000 } 20 = true ∧
    (shouldSplitBlock
      { size := 100, isFree := true, isMmapAllocated := false,
        next := none, nextFree := some 1000 } 20 = true ↔
      20 + headerSize + MIN_PAYLOAD_SIZE ≤ 100) ∧
    (∃ s2, splitBlock c6State 1000 20 = some s2 ∧
        s2.freeListHead = some (1000 + headerSize + 20) ∧
        s2.blockListHead = c6State.blockListHead ∧
        memLookup s2.mem (1000 + headerSize + 20) = some
          { size := 100 - 20 - headerSize, isFree := true,
            isMmapAllocated := false, next := none, nextFree := c6State.freeListHead } ∧
        memLookup s2.mem 1000 = some
          { size := 20, isFree := true, isMmapAllocated := false,
            next := some (1000 + headerSize + 20), nextFree := some 1000 } ∧
        (∀ x, x ≠ 1000 → x ≠ 1000 + headerSize + 20 →
          memLookup s2.mem x = memLookup c6State.mem x) ∧
        1000 < 1000 + headerSize + 20) := by
  have hc := claim_C6_split c6State 1000 20
    { size := 100, isFree := true, isMmapAllocated := false,
      next := none, nextFree := some 1000 } (by decide)
  exact ⟨by decide, by decide, hc.1, hc.2 (by decide)⟩

end SbrkAlloc

namespace SbrkAlloc

/-- The predicate `findFreeBloc` actually tests on each scanned block:
`curr->isFree && curr->size >= size` (reading the header at the address). -/
def fitsFree (mem : Mem) (sz a : Nat) : Bool :=
  match memLookup mem a with
  | some b => b.isFree && decide (sz ≤ b.size)
  | none => false

/-- The scan of `findFreeBloc` returns the first entry of the free-list
chain satisfying `fitsFree` (free AND large enough), whenever the chain
materialises within the given fuel. -/
theorem findFreeBlocAux_eq_find (mem : Mem) (sz : Nat) :
    ∀ (fuel : Nat) (head : Option Nat) (l : List Nat),
      freeChainAux mem head fuel = some l →
      findFreeBlocAux mem sz head fuel = some (l.find? (fitsFree mem sz)) := by
  intro fuel
  induction fuel with
  | zero =>
    intro head l hc
    cases head with
    | none =>
      injection hc with h2
      subst h2
      rfl
    | some a => exact absurd hc (by simp [freeChainAux])
  | succ f ih =>
    intro head l hc
    cases head with
    | none =>
      injection hc with h2
      subst h2
      rfl
    | some a =>
      simp only [freeChainAux] at hc
      cases hl : memLookup mem a with
      | none => rw [hl] at hc; exact absurd hc (by simp)
      | some b =>
        rw [hl] at hc
        rw [Option.map_eq_some'] at hc
        obtain ⟨l2, hcc, hl2⟩ := hc
        subst hl2
        simp only [findFreeBlocAux, hl]
        by_cases hfit : (b.isFree && decide (sz ≤ b.size)) = true
        · rw [if_pos hfit, List.find?_cons_of_pos _ (by simp [fitsFree, hl, hfit])]
        · rw [if_neg hfit, ih b.nextFree l2 hcc,
            List.find?_cons_of_neg _ (by simp only [fitsFree, hl]; exact hfit)]

/-- Claim C8, amended.  For every state whose Free Registry chain
materialises as the list `l`, the heap-path search scans `l` in its current
link order (most-recently-freed first) and returns the first block that is
BOTH marked free and has `size ≥` the request (`fitsFree`) — first fit, not
best fit.  The amendment: blocks present in the registry but not marked free
are skipped by the scan (such blocks occur in reachable states, see the
counterexample), so "first block whose size suffices" holds only up to the
additional `isFree` test. -/
theorem claim_C8_first_fit (s : AllocState) (sz fuel : Nat) (l : List Nat)
    (hc : freeChain s fuel = some l) :
    findFreeBloc s sz fuel = some (l.find? (fitsFree s.mem sz)) :=
  findFreeBlocAux_eq_find s.mem sz fuel s.freeListHead l hc

/-- Claim C8, counterexample to the literal statement.  In the reachable
state after call 16 of the `st1`–`st17` sequence, the Free Registry chain is
[1396, 1132] and the first block whose size is ≥ the request 100 is the head
1396 (size 140), yet `findFreeBloc` returns 1132: block 1396 sits in the
registry while allocated (head-removal bug) and the scan skips it because of
its `isFree` test, so the scan does NOT return the first block whose size
fits, contradicting the claim as stated. -/
theorem claim_C8_counterexample :
    st16.map (fun y => (freeChain y.2 10, findFreeBloc y.2 100 100,
        (memLookup y.2.mem 1396).map (fun bb => decide (100 ≤ bb.size))))
      = some (some [1396, 1132], some (some 1132), some true) := by
  decide

/-- A state whose Free Registry holds an allocated block 2000 followed by a
free block 3000, used to instantiate the amended claim C8. -/
def c8State : AllocState :=
  { mem := [(2000, { size := 50, isFree := false, isMmapAllocated := false,
                     next := some 3000, nextFree := some 3000 }),
            (3000, { size := 10, isFree := true, isMmapAllocated := false,
                     next := none, nextFree := none })],
    freeListHead := some 2000, blockListHead := some 2000, brk := 0,
    mmapNext := 0, sbrkCalls := [], mmapCalls := [], munmapCalls := [] }

/-- Witness for the amended claim C8 at a concrete state: the chain is
[2000, 3000] and the scan returns 3000, the first free fitting block. -/
theorem claim_C8_first_fit_witness :
    freeChain c8State 10 = some [2000, 3000] ∧
    findFreeBloc c8State 5 10 = some (List.find? (fitsFree c8State.mem 5) [2000, 3000]) ∧
    List.find? (fitsFree c8State.mem 5) [2000, 3000] = some 3000 :=
  ⟨by decide, claim_C8_first_fit c8State 5 10 [2000, 3000] (by decide), by decide⟩

end SbrkAlloc

namespace SbrkAlloc

/-- A successful first-fit scan returns a block whose header is readable,
marked free, and large enough for the request. -/
theorem findFreeBlocAux_found (mem : Mem) (sz : Nat) :
    ∀ (fuel : Nat) (head : Option Nat) (a : Nat),
      findFreeBlocAux mem sz head fuel = some (some a) →
      ∃ b, memLookup mem a = some b ∧ b.isFree = true ∧ sz ≤ b.size := by
  intro fuel
  induction fuel with
  | zero =>
    intro head a h
    cases head with
    | none => exact absurd h (by simp [findFreeBlocAux])
    | some x => exact absurd h (by simp [findFreeBlocAux])
  | succ f ih =>
    intro head a h
    cases head with
    | none => exact absurd h (by simp [findFreeBlocAux])
    | some x =>
      simp only [findFreeBlocAux] at h
      cases hl : memLookup mem x with
      | none => rw [hl] at h; exact absurd h (by simp)
      | some b =>
        simp only [hl] at h
        by_cases hfit : (b.isFree && decide (sz ≤ b.size)) = true
        · rw [if_pos hfit] at h
          injection h with h2
          injection h2 with h3
          subst h3
          rw [Bool.and_eq_true, decide_eq_true_eq] at hfit
          exact ⟨b, hl, hfit.1, hfit.2⟩
        · rw [if_neg hfit] at h
          exact ih b.nextFree a h

/-- The loop of `removeFromFreeList` only rewrites `nextFree` fields: every
header keeps its size and free flag. -/
theorem removeAux_sizeQuiet (blockAddr : Nat) :
    ∀ (fuel : Nat) (mem m2 : Mem) (curr : Nat),
      removeAux mem curr blockAddr fuel = some m2 →
      ∀ x, (memLookup m2 x).map MemoryBlock.size = (memLookup mem x).map MemoryBlock.size ∧
        (memLookup m2 x).map MemoryBlock.isFree = (memLookup mem x).map MemoryBlock.isFree := by
  intro fuel
  induction fuel with
  | zero => intro mem m2 curr h; exact absurd h (by simp [removeAux])
  | succ f ih =>
    intro mem m2 curr h x
    simp only [removeAux] at h
    cases hl : memLookup mem curr with
    | none => rw [hl] at h; exact absurd h (by simp)
    | some cb =>
      simp only [hl] at h
      cases hn : cb.nextFree with
      | none =>
        simp only [hn] at h
        injection h with h2
        subst h2
        exact ⟨rfl, rfl⟩
      | some n =>
        simp only [hn] at h
        by_cases he : n = blockAddr
        · rw [if_pos he] at h
          cases hb : memLookup mem blockAddr with
          | none => rw [hb] at h; exact absurd h (by simp)
          | some bb =>
            simp only [hb] at h
            injection h with h2
            subst h2
            rw [memLookup_memUpdate]
            by_cases hx : x = curr
            · subst hx
              rw [if_pos rfl, hl]
              exact ⟨rfl, rfl⟩
            · rw [if_neg hx]
              exact ⟨rfl, rfl⟩
        · rw [if_neg he] at h
          exact ih mem m2 n h x

/-- Method `removeFromFreeList` keeps every header's size and free flag. -/
theorem removeFromFreeList_sizeQuiet (s s2 : AllocState) (a fuel : Nat)
    (h : removeFromFreeList s a fuel = some s2) :
    ∀ x, (memLookup s2.mem x).map MemoryBlock.size = (memLookup s.mem x).map MemoryBlock.size ∧
      (memLookup s2.mem x).map MemoryBlock.isFree = (memLookup s.mem x).map MemoryBlock.isFree := by
  intro x
  unfold removeFromFreeList at h
  split at h
  · injection h with h2
    subst h2
    exact ⟨rfl, rfl⟩
  · split at h
    · split at h
      · exact absurd h (by simp)
      · injection h with h2
        subst h2
        exact ⟨rfl, rfl⟩
    · rw [Option.map_eq_some'] at h
      obtain ⟨m, hm, h2⟩ := h
      subst h2
      exact removeAux_sizeQuiet a fuel s.mem m _ hm x

/-- The loop of `appendToBlockList` only rewrites one `next` field: every
header keeps its size and free flag. -/
theorem appendAux_sizeQuiet (blockAddr : Nat) :
    ∀ (fuel : Nat) (mem m2 : Mem) (curr : Nat),
      appendAux mem curr blockAddr fuel = some m2 →
      ∀ x, (memLookup m2 x).map MemoryBlock.size = (memLookup mem x).map MemoryBlock.size ∧
        (memLookup m2 x).map MemoryBlock.isFree = (memLookup mem x).map MemoryBlock.isFree := by
  intro fuel
  induction fuel with
  | zero => intro mem m2 curr h; exact absurd h (by simp [appendAux])
  | succ f ih =>
    intro mem m2 curr h x
    simp only [appendAux] at h
    cases hl : memLookup mem curr with
    | none => rw [hl] at h; exact absurd h (by simp)
    | some cb =>
      simp only [hl] at h
      cases hn : cb.next with
      | none =>
        simp only [hn] at h
        injection h with h2
        subst h2
        rw [memLookup_memUpdate]
        by_cases hx : x = curr
        · subst hx
          rw [if_pos rfl, hl]
          exact ⟨rfl, rfl⟩
        · rw [if_neg hx]
          exact ⟨rfl, rfl⟩
      | some nx =>
        simp only [hn] at h
        exact ih mem m2 nx h x

/-- Method `appendToBlockList` keeps every header's size and free flag. -/
theorem appendToBlockList_sizeQuiet (s s2 : AllocState) (a fuel : Nat)
    (h : appendToBlockList s a fuel = some s2) :
    ∀ x, (memLookup s2.mem x).map MemoryBlock.size = (memLookup s.mem x).map MemoryBlock.size ∧
      (memLookup s2.mem x).map MemoryBlock.isFree = (memLookup s.mem x).map MemoryBlock.isFree := by
  intro x
  unfold appendToBlockList at h
  split at h
  · injection h with h2
    subst h2
    exact ⟨rfl, rfl⟩
  · rw [Option.map_eq_some'] at h
    obtain ⟨m, hm, h2⟩ := h
    subst h2
    exact appendAux_sizeQuiet a fuel s.mem m _ hm x

end SbrkAlloc

namespace SbrkAlloc

/-- Claim C10.  A request of size zero is not rejected or special-cased:
0 is below the threshold, so `malloc(0)` always takes the managed heap path
(no mapping call, conjunct 2); when the scan locates a free block `a` (every
free block fits a zero request), the completed call returns the non-null
payload pointer `a + header` and the block's recorded size is either 0
(split) or the reused block's size (conjunct 3); and when the scan finds no
candidate and `sbrk` succeeds, the completed call returns the non-null
payload `brk + header` of a fresh block of recorded size 0 (conjunct 4) —
never the failure sentinel. -/
theorem claim_C10_zero (s : AllocState) (fuel : Nat) :
    0 < MMAP_THRESHOLD ∧
    (∀ (osOk : Bool) (r : Option Nat) (s2 : AllocState),
      malloc s osOk 0 fuel = some (r, s2) →
      s2.mmapCalls = s.mmapCalls ∧ s2.mmapNext = s.mmapNext) ∧
    (∀ a, findFreeBloc s 0 fuel = some (some a) →
      ∀ (r : Option Nat) (s2 : AllocState), malloc s true 0 fuel = some (r, s2) →
      r = some (a + headerSize) ∧
      ∃ b b2, memLookup s.mem a = some b ∧ memLookup s2.mem a = some b2 ∧
        (b2.size = 0 ∨ b2.size = b.size)) ∧
    (findFreeBloc s 0 fuel = some none →
      ∀ (r : Option Nat) (s2 : AllocState), malloc s true 0 fuel = some (r, s2) →
      r = some (s.brk + headerSize) ∧
      ∃ b2, memLookup s2.mem s.brk = some b2 ∧ b2.size = 0) := by
  refine ⟨by decide,
    fun osOk r s2 hm => malloc_small_mmapQuiet s osOk 0 fuel (by decide) r s2 hm,
    fun a hf r s2 hm => ?_, fun hf r s2 hm => ?_⟩
  · -- the reuse path
    obtain ⟨b, hb, hbf, hbs⟩ := findFreeBlocAux_found s.mem 0 fuel s.freeListHead a hf
    unfold malloc at hm
    rw [if_neg (by decide : ¬ (MMAP_THRESHOLD ≤ 0))] at hm
    simp only [hf, hb] at hm
    by_cases hsp : shouldSplitBlock b 0 = true
    · rw [if_pos hsp, splitBlock_spec s a 0 b hb] at hm
      simp only [memLookup_memUpdate, eq_self_iff_true, if_true] at hm
      split at hm
      · exact absurd hm (by simp)
      · rename_i s3 hrem
        injection hm with hm2
        injection hm2 with hr hs2
        subst hs2
        refine ⟨hr.symm, b, ?_⟩
        have hq := (removeFromFreeList_sizeQuiet _ _ _ _ hrem a).1
        simp only [memLookup_memUpdate, eq_self_iff_true, if_true, Option.map_some'] at hq
        cases hlk : memLookup s3.mem a with
        | none => rw [hlk] at hq; exact absurd hq (by simp)
        | some b2 =>
          rw [hlk] at hq
          injection hq with hq2
          exact ⟨b2, hb, rfl, Or.inl hq2⟩
    · rw [if_neg hsp] at hm
      simp only [hb] at hm
      split at hm
      · exact absurd hm (by simp)
      · rename_i s3 hrem
        injection hm with hm2
        injection hm2 with hr hs2
        subst hs2
        refine ⟨hr.symm, b, ?_⟩
        have hq := (removeFromFreeList_sizeQuiet _ _ _ _ hrem a).1
        simp only [memLookup_memUpdate, eq_self_iff_true, if_true, Option.map_some'] at hq
        cases hlk : memLookup s3.mem a with
        | none => rw [hlk] at hq; exact absurd hq (by simp)
        | some b2 =>
          rw [hlk] at hq
          injection hq with hq2
          exact ⟨b2, hb, rfl, Or.inr hq2⟩
  · -- the sbrk path
    unfold malloc at hm
    rw [if_neg (by decide : ¬ (MMAP_THRESHOLD ≤ 0))] at hm
    simp only [hf, if_true] at hm
    split at hm
    · exact absurd hm (by simp)
    · rename_i s3 happ
      injection hm with hm2
      injection hm2 with hr hs2
      subst hs2
      refine ⟨hr.symm, ?_⟩
      have hq := (appendToBlockList_sizeQuiet _ _ _ _ happ s.brk).1
      simp only [memLookup_memUpdate, eq_self_iff_true, if_true, Option.map_some'] at hq
      cases hlk : memLookup s3.mem s.brk with
      | none => rw [hlk] at hq; exact absurd hq (by simp)
      | some b2 =>
        rw [hlk] at hq
        injection hq with hq2
        exact ⟨b2, rfl, hq2⟩

end SbrkAlloc

namespace SbrkAlloc

/-- The allocator state after `malloc(0)` on a fresh allocator: one heap
block of recorded payload size 0. -/
def c10State : AllocState :=
  { mem := [(1000, { size := 0, isFree := false, isMmapAllocated := false,
                     next := none, nextFree := none })],
    freeListHead := none, blockListHead := some 1000, brk := 1032,
    mmapNext := 1099511627776, sbrkCalls := [32], mmapCalls := [],
    munmapCalls := [] }

/-- The allocator state after `malloc(0)` on `c8State`: the free block 3000
is reused for the zero-sized request. -/
def c10Reuse : AllocState :=
  { mem := [(2000, { size := 50, isFree := false, isMmapAllocated := false,
                     next := some 3000, nextFree := none }),
            (3000, { size := 10, isFree := false, isMmapAllocated := false,
                     next := none, nextFree := none })],
    freeListHead := some 2000, blockListHead := some 2000, brk := 0,
    mmapNext := 0, sbrkCalls := [], mmapCalls := [], munmapCalls := [] }

/-- Witness for claim C10: on a fresh allocator `malloc(0)` stays on the
heap path, extends the heap, and returns the non-null pointer 1032 to a
block of recorded size 0; on `c8State` it reuses the free block 3000 and
returns the non-null pointer 3032. -/
theorem claim_C10_zero_witness :
    0 < MMAP_THRESHOLD ∧
    (findFreeBloc initState 0 100 = some none ∧
      malloc initState true 0 100 = some (some 1032, c10State) ∧
      c10State.mmapCalls = initState.mmapCalls ∧ c10State.mmapNext = initState.mmapNext ∧
      (some 1032 : Option Nat) = some (initState.brk + headerSize) ∧
      (∃ b2, memLookup c10State.mem initState.brk = some b2 ∧ b2.size = 0)) ∧
    (findFreeBloc c8State 0 10 = some (some 3000) ∧
      malloc c8State true 0 10 = some (some 3032, c10Reuse) ∧
      (some 3032 : Option Nat) = some (3000 + headerSize) ∧
      (∃ b b2, memLookup c8State.mem 3000 = some b ∧ memLookup c10Reuse.mem 3000 = some b2 ∧
        (b2.size = 0 ∨ b2.size = b.size))) := by
  obtain ⟨h1, h2⟩ := (claim_C10_zero initState 100).2.2.2 (by decide) (some 1032) c10State
    (by decide)
  have hq := (claim_C10_zero initState 100).2.1 true (some 1032) c10State (by decide)
  obtain ⟨h3, h4⟩ := (claim_C10_zero c8State 10).2.2.1 3000 (by decide) (some 3032) c10Reuse
    (by decide)
  exact ⟨by decide, ⟨by decide, by decide, hq.1, hq.2, h1, h2⟩,
    ⟨by decide, by decide, h3, h4⟩⟩

end SbrkAlloc
